import Mathlib

/-!
Verification development for the IgnorePhrasePlugin repository
(`src/plugin.py`).

The plugin keeps its rule set in a TOML configuration file shared with the
host's web UI.  We shallowly embed the Python code:

* a parsed TOML document is an insertion-ordered association list
  (`Dict`), mirroring a Python `dict`;
* `ConfigManager.add_phrase` / `del_phrase` / `add_pattern` / `del_pattern`
  become pure step functions from the configuration read to the
  configuration handed to `_write_config` (`none` when the method returns
  `False` without attempting a write);
* Python's `re` module is an oracle parameter: `re.search` is a function
  returning `Option Bool` (`none` models an `re.error` being raised,
  `some b` a successful search), and `re.compile` an
  `String → Option String` returning the compiler's error message on
  failure;
* logging calls are side-effect free and are dropped.
-/

namespace IgnorePhrase

/-- A TOML value as produced by `tomli.load`: string, integer, boolean,
array, or nested table.  Tables keep insertion order, like Python dicts. -/
inductive Toml where
  | str (s : String)
  | int (n : Int)
  | bool (b : Bool)
  | arr (elems : List Toml)
  | table (kvs : List (String × Toml))

/-- A parsed TOML document / Python dict: insertion-ordered key-value list. -/
abbrev Dict := List (String × Toml)

/-- Python equality test `v == s` between a stored TOML value and a Python
string `s`: true exactly when `v` is the string `s` (Python's `==` between
a `str` and a non-`str` is `False`). -/
def Toml.eqStr : Toml → String → Bool
  | .str t, s => t = s
  | _, _ => false

/-- Python `d.get(k)` / `k in d` lookup on an ordered dict. -/
def dGet : Dict → String → Option Toml
  | [], _ => none
  | (k', v) :: rest, k => if k' = k then some v else dGet rest k

/-- Python `d[k] = v`: replace in place if the key exists (keeping its
position), otherwise append at the end. -/
def dSet : Dict → String → Toml → Dict
  | [], k, v => [(k, v)]
  | (k', v') :: rest, k, v =>
      if k' = k then (k, v) :: rest else (k', v') :: dSet rest k v

/-- Read a table-valued lookup result as a dict, `{}` when absent.
Mirrors `config.get(sec, {})` on a schema-conforming file (a present
non-table value would make the Python code raise; the claims below only
concern schema-conforming stores). -/
def getTableD : Option Toml → Dict
  | some (Toml.table kvs) => kvs
  | _ => []

/-- Read an array-valued lookup result as a list, `[]` when absent.
Mirrors `sec.get(key, [])` on a schema-conforming file. -/
def getArrD : Option Toml → List Toml
  | some (Toml.arr l) => l
  | _ => []

/-- `ConfigManager.get_phrases`: `config.get("phrases", {}).get("list", [])`. -/
def get_phrases (config : Dict) : List Toml :=
  getArrD (dGet (getTableD (dGet config "phrases")) "list")

/-- `ConfigManager.get_patterns`: `config.get("regex", {}).get("patterns", [])`. -/
def get_patterns (config : Dict) : List Toml :=
  getArrD (dGet (getTableD (dGet config "regex")) "patterns")

/-- `ConfigManager.add_phrase`, from the configuration read to the
configuration passed to `_write_config`; `none` when the phrase is already
present and the method returns `False` without writing. -/
def add_phrase_step (config : Dict) (phrase : String) : Option Dict :=
  let cfg1 := match dGet config "phrases" with
    | none => dSet config "phrases" (Toml.table [])
    | some _ => config
  let sec := getTableD (dGet cfg1 "phrases")
  let phrases := getArrD (dGet sec "list")
  if phrases.any (fun v => v.eqStr phrase) then none
  else some (dSet cfg1 "phrases"
    (Toml.table (dSet sec "list" (Toml.arr (phrases ++ [Toml.str phrase])))))

/-- `ConfigManager.add_pattern`, same shape as `add_phrase_step` but on
`regex.patterns`. -/
def add_pattern_step (config : Dict) (pat : String) : Option Dict :=
  let cfg1 := match dGet config "regex" with
    | none => dSet config "regex" (Toml.table [])
    | some _ => config
  let sec := getTableD (dGet cfg1 "regex")
  let patterns := getArrD (dGet sec "patterns")
  if patterns.any (fun v => v.eqStr pat) then none
  else some (dSet cfg1 "regex"
    (Toml.table (dSet sec "patterns" (Toml.arr (patterns ++ [Toml.str pat])))))

/-- `ConfigManager.del_phrase`: `phrases.remove(phrase)` removes the first
element equal to the phrase; `none` when the phrase is absent. -/
def del_phrase_step (config : Dict) (phrase : String) : Option Dict :=
  let phrases := getArrD (dGet (getTableD (dGet config "phrases")) "list")
  if phrases.any (fun v => v.eqStr phrase) then
    let phrases' := phrases.eraseP (fun v => v.eqStr phrase)
    let cfg1 := match dGet config "phrases" with
      | none => dSet config "phrases" (Toml.table [])
      | some _ => config
    let sec := getTableD (dGet cfg1 "phrases")
    some (dSet cfg1 "phrases" (Toml.table (dSet sec "list" (Toml.arr phrases'))))
  else none

/-- `ConfigManager.del_pattern`, same shape as `del_phrase_step` but on
`regex.patterns`. -/
def del_pattern_step (config : Dict) (pat : String) : Option Dict :=
  let patterns := getArrD (dGet (getTableD (dGet config "regex")) "patterns")
  if patterns.any (fun v => v.eqStr pat) then
    let patterns' := patterns.eraseP (fun v => v.eqStr pat)
    let cfg1 := match dGet config "regex" with
      | none => dSet config "regex" (Toml.table [])
      | some _ => config
    let sec := getTableD (dGet cfg1 "regex")
    some (dSet cfg1 "regex" (Toml.table (dSet sec "patterns" (Toml.arr patterns'))))
  else none

/-- One full `add_phrase` call: the file content it leaves behind and the
boolean it returns, given whether `_write_config` would succeed. -/
def add_phrase_run (config : Dict) (phrase : String) (writeOk : Bool) :
    Dict × Bool :=
  match add_phrase_step config phrase with
  | none => (config, false)
  | some cfg' => if writeOk then (cfg', true) else (config, false)

/-! ### ConfigManager lifecycle (`load`, `_read_config`) -/

/-- The backing file: `none` when `config.toml` does not exist, otherwise
its parsed content. -/
structure FS where
  file : Option Dict

/-- `ConfigManager`'s own state: the `config_path` attribute. -/
structure CMState where
  config_path : Option String

/-- `ConfigManager.load(plugin_dir)`: sets `config_path` to
`plugin_dir / "config.toml"` and logs.  It performs no file I/O, so the
file system component is returned unchanged. -/
def ConfigManager.load (_st : CMState) (plugin_dir : String) (fs : FS) :
    CMState × FS :=
  ({ config_path := some (plugin_dir ++ "/config.toml") }, fs)

/-- `ConfigManager._read_config`: `{}` when the path is unset or the file
does not exist, otherwise the parsed content (a parse failure also yields
`{}`; we model a well-formed file). -/
def read_config (st : CMState) (fs : FS) : Dict :=
  match st.config_path, fs.file with
  | none, _ => []
  | some _, none => []
  | some _, some d => d

/-! ### Permission gate (`check_permission`) -/

/-- An entry of `user_control.list` as the schema allows it: a QQ id stored
as a TOML string or integer. -/
inductive TomlPrim where
  | s (v : String)
  | i (v : Int)

/-- Python `str(u)` on a list entry. -/
def TomlPrim.toStr : TomlPrim → String
  | .s v => v
  | .i v => toString v

/-- The `user_control` section: both keys optional. -/
structure UserControl where
  list_type : Option String
  list : Option (List TomlPrim)

/-- The configuration dict as `check_permission` sees it: its
`user_control` section plus whether any other key is present (a Python
empty dict is falsy, so `not config` holds iff both are absent). -/
structure PermConfig where
  user_control : Option UserControl
  has_other_keys : Bool

/-- Python truthiness of the config dict. -/
def PermConfig.truthy (c : PermConfig) : Bool :=
  c.user_control.isSome || c.has_other_keys

/-- `check_permission(user_id, config)` from `src/plugin.py`:
falsy `user_id` or falsy/absent config → `False`; otherwise read
`list_type` (default `"whitelist"`) and the user list (entries coerced
with `str`), then whitelist → membership, blacklist → non-membership,
anything else → `False`. -/
def check_permission (user_id : String) (config : Option PermConfig) : Bool :=
  if user_id = "" then false
  else match config with
  | none => false
  | some c =>
    if !c.truthy then false
    else
      let uc := c.user_control.getD ⟨none, none⟩
      let list_type := uc.list_type.getD "whitelist"
      let user_list := (uc.list.getD []).map TomlPrim.toStr
      if list_type = "whitelist" then user_list.contains user_id
      else if list_type = "blacklist" then !(user_list.contains user_id)
      else false

/-! ### Match engine (`_check_phrase_match`, `_check_regex_match`) -/

/-- Python `s.lower()`, modelled per character (ASCII case folding, which
covers every example in the specification). -/
def strLower (s : String) : String := ⟨s.data.map Char.toLower⟩

/-- Python `s.strip()`: remove leading and trailing whitespace. -/
def pyStrip (s : String) : String :=
  ⟨((s.data.dropWhile Char.isWhitespace).reverse.dropWhile
      Char.isWhitespace).reverse⟩

/-- Python's substring test `needle in hay`: some contiguous run of `hay`'s
characters equals `needle`. -/
def pyIn (needle hay : String) : Bool :=
  hay.data.tails.any (fun t => needle.data.isPrefixOf t)

/-- Python `hay.startswith(needle)`. -/
def pyStartsWith (hay needle : String) : Bool := needle.data.isPrefixOf hay.data

/-- Python `hay.endswith(needle)`. -/
def pyEndsWith (hay needle : String) : Bool := needle.data.isSuffixOf hay.data

/-- `IgnoreMessageHandler._check_phrase_match(text, phrases, match_mode,
case_sensitive)`. -/
def check_phrase_match (text : String) (phrases : List String)
    (match_mode : String) (case_sensitive : Bool) : Bool :=
  if text = "" ∨ phrases = [] then false
  else
    let check_text := if case_sensitive then text else strLower text
    phrases.any (fun phrase =>
      if phrase = "" then false
      else
        let check_phrase := if case_sensitive then phrase else strLower phrase
        if match_mode = "exact" then check_text = check_phrase
        else if match_mode = "startswith" then pyStartsWith check_text check_phrase
        else if match_mode = "endswith" then pyEndsWith check_text check_phrase
        else pyIn check_phrase check_text)

/-- The `re.search` oracle: `search pat text ignorecase` is `none` when
`re.search` raises `re.error` for `pat`, and `some b` when it returns,
`b` telling whether a match was found.  `ignorecase` is the
`re.IGNORECASE` flag computed from `case_sensitive`. -/
abbrev ReSearch := String → String → Bool → Option Bool

/-- `IgnoreMessageHandler._check_regex_match(text, patterns,
case_sensitive)`: empty text or list → `False`; empty patterns are
skipped; an `re.error` (oracle `none`) is caught, logged and skipped;
first successful match wins. -/
def check_regex_match (search : ReSearch) (text : String)
    (patterns : List String) (case_sensitive : Bool) : Bool :=
  if text = "" ∨ patterns = [] then false
  else
    let ignorecase := !case_sensitive
    patterns.any (fun pat =>
      if pat = "" then false
      else (search pat text ignorecase).getD false)

/-! ### Command surface -/

/-- `IgnoreAddCommand.execute`.  Inputs: whether the permission check
passed, the captured `phrase` group (`none` when `matched_groups` is
empty), whether `_write_config` would succeed, and the stored
configuration.  Output: the `(success, reason, intercept)` triple and the
configuration on disk afterwards. -/
def ignore_add_execute (hasPerm : Bool) (matched : Option String)
    (writeOk : Bool) (cfg : Dict) : (Bool × String × Bool) × Dict :=
  if !hasPerm then ((false, "权限不足", true), cfg)
  else
    let phrase := pyStrip (matched.getD "")
    if phrase = "" then ((false, "参数缺失", true), cfg)
    else match add_phrase_step cfg phrase with
    | none => ((false, "已存在", true), cfg)
    | some cfg' =>
      if writeOk then ((true, "添加屏蔽词: " ++ phrase, true), cfg')
      else ((false, "已存在", true), cfg)

/-- The `re.compile` oracle used at add time: `some e` is an `re.error`
carrying message `e`, `none` a successful compile. -/
abbrev ReCompile := String → Option String

/-- `IgnoreAddRegexCommand.execute`.  Same inputs as `ignore_add_execute`
plus the `re.compile` oracle; also returns the list of texts sent to the
chat (to observe the reported error message). -/
def ignore_addr_execute (compileErr : ReCompile) (hasPerm : Bool)
    (matched : Option String) (writeOk : Bool) (cfg : Dict) :
    (Bool × String × Bool) × List String × Dict :=
  if !hasPerm then
    ((false, "权限不足", true), ["❌ 你没有权限执行此命令"], cfg)
  else
    let pat := pyStrip (matched.getD "")
    if pat = "" then
      ((false, "参数缺失", true), ["❌ 请指定正则表达式\n用法: /ignore addr <正则>"], cfg)
    else match compileErr pat with
    | some e =>
      ((false, "正则无效", true), ["❌ 无效的正则表达式: " ++ e], cfg)
    | none =>
      match add_pattern_step cfg pat with
      | none => ((false, "已存在", true), ["⚠️ 正则表达式已存在: " ++ pat], cfg)
      | some cfg' =>
        if writeOk then
          ((true, "添加正则: " ++ pat, true), ["✅ 已添加正则表达式: " ++ pat], cfg')
        else ((false, "已存在", true), ["⚠️ 正则表达式已存在: " ++ pat], cfg)

/-- `IgnoreDelCommand.execute`. -/
def ignore_del_execute (hasPerm : Bool) (matched : Option String)
    (writeOk : Bool) (cfg : Dict) : (Bool × String × Bool) × Dict :=
  if !hasPerm then ((false, "权限不足", true), cfg)
  else
    let phrase := pyStrip (matched.getD "")
    if phrase = "" then ((false, "参数缺失", true), cfg)
    else match del_phrase_step cfg phrase with
    | none => ((false, "不存在", true), cfg)
    | some cfg' =>
      if writeOk then ((true, "删除屏蔽词: " ++ phrase, true), cfg')
      else ((false, "不存在", true), cfg)

/-- `IgnoreDelRegexCommand.execute`. -/
def ignore_delr_execute (hasPerm : Bool) (matched : Option String)
    (writeOk : Bool) (cfg : Dict) : (Bool × String × Bool) × Dict :=
  if !hasPerm then ((false, "权限不足", true), cfg)
  else
    let pat := pyStrip (matched.getD "")
    if pat = "" then ((false, "参数缺失", true), cfg)
    else match del_pattern_step cfg pat with
    | none => ((false, "不存在", true), cfg)
    | some cfg' =>
      if writeOk then ((true, "删除正则: " ++ pat, true), cfg')
      else ((false, "不存在", true), cfg)

/-- One mutating chat command with its per-call environment: permission
outcome, captured argument, and whether the write would succeed. -/
inductive Cmd where
  | addP (hasPerm : Bool) (matched : Option String) (writeOk : Bool)
  | addR (hasPerm : Bool) (matched : Option String) (writeOk : Bool)
  | delP (hasPerm : Bool) (matched : Option String) (writeOk : Bool)
  | delR (hasPerm : Bool) (matched : Option String) (writeOk : Bool)

/-- Effect of one command on the stored configuration. -/
def runCmd (compileErr : ReCompile) (cfg : Dict) : Cmd → Dict
  | .addP hp m w => (ignore_add_execute hp m w cfg).2
  | .addR hp m w => (ignore_addr_execute compileErr hp m w cfg).2.2
  | .delP hp m w => (ignore_del_execute hp m w cfg).2
  | .delR hp m w => (ignore_delr_execute hp m w cfg).2

/-- Effect of a sequence of commands on the stored configuration. -/
def runCmds (compileErr : ReCompile) (cmds : List Cmd) (cfg : Dict) : Dict :=
  cmds.foldl (runCmd compileErr) cfg

/-! ### Intercept handler (`IgnoreMessageHandler.execute`) -/

/-- The configuration values `execute` reads through `get_config`, with
their schema defaults already resolved. -/
structure HandlerConfig where
  plugin_enabled : Bool
  phrases_enabled : Bool
  phrases_list : List String
  match_mode : String
  case_sensitive : Bool
  regex_enabled : Bool
  patterns : List String
  regex_case_sensitive : Bool

/-- An incoming message: its `plain_text` attribute (`none` when unset). -/
structure Msg where
  plain_text : Option String

/-- `IgnoreMessageHandler.execute(message)`: the
`(success, continue_processing, reason)` part of the returned 5-tuple
(the last two slots are the constant `None`). -/
def handler_execute (search : ReSearch) (cfg : HandlerConfig)
    (message : Option Msg) : Bool × Bool × Option String :=
  if !cfg.plugin_enabled then (true, true, none)
  else match message with
  | none => (true, true, none)
  | some m =>
    match m.plain_text with
    | none => (true, true, none)
    | some text =>
      if text = "" then (true, true, none)
      else if cfg.phrases_enabled &&
          check_phrase_match text cfg.phrases_list cfg.match_mode
            cfg.case_sensitive then
        (true, false, some "短语匹配拦截")
      else if cfg.regex_enabled &&
          check_regex_match search text cfg.patterns
            cfg.regex_case_sensitive then
        (true, false, some "正则匹配拦截")
      else (true, true, none)

/-! ### Dictionary lemmas -/

/-- The combined effect of the section-update dance all four mutators
share: ensure the section exists, then assign `sec[keyName] = v`. -/
def setSection (cfg : Dict) (secName keyName : String) (v : Toml) : Dict :=
  let cfg1 := match dGet cfg secName with
    | none => dSet cfg secName (Toml.table [])
    | some _ => cfg
  let sec := getTableD (dGet cfg1 secName)
  dSet cfg1 secName (Toml.table (dSet sec keyName v))

/-- Spec-side wording of the per-mode test of `matchPhrase`: full equality
for `exact`, prefix for `startswith`, suffix for `endswith`, substring
containment for any other mode (the `contains` default). -/
def modeTest (mode t q : String) : Bool :=
  if mode = "exact" then t = q
  else if mode = "startswith" then pyStartsWith t q
  else if mode = "endswith" then pyEndsWith t q
  else pyIn q t

/-- Spec-side wording of `matchPhrase`: with text and phrases lower-cased
unless `case_sensitive`, some non-empty phrase of the list passes the
mode's test against the text. -/
def matchPhraseSpec (text : String) (phrases : List String)
    (mode : String) (case_sensitive : Bool) : Prop :=
  text ≠ "" ∧ phrases ≠ [] ∧
    ∃ p ∈ phrases, p ≠ "" ∧
      modeTest mode (if case_sensitive then text else strLower text)
        (if case_sensitive then p else strLower p)

/-- Neither stored sequence contains the empty string. -/
def EmptyFree (cfg : Dict) : Prop :=
  (get_phrases cfg).any (fun v => v.eqStr "") = false ∧
  (get_patterns cfg).any (fun v => v.eqStr "") = false

theorem dGet_dSet_self (d : Dict) (k : String) (v : Toml) :
    dGet (dSet d k v) k = some v := by
  induction d with
  | nil => simp [dGet, dSet]
  | cons p rest ih =>
    obtain ⟨k', v'⟩ := p
    by_cases h : k' = k
    · simp [dGet, dSet, h]
    · simp [dGet, dSet, h, ih]

theorem dGet_dSet_ne (d : Dict) (k k' : String) (v : Toml) (h : k' ≠ k) :
    dGet (dSet d k v) k' = dGet d k' := by
  have h' : ¬(k = k') := fun hh => h hh.symm
  induction d with
  | nil => simp [dGet, dSet, h']
  | cons p rest ih =>
    obtain ⟨k'', v''⟩ := p
    by_cases hk : k'' = k
    · subst hk
      simp [dGet, dSet, h']
    · simp [dGet, dSet, hk, ih]

theorem dGet_setSection_ne (cfg : Dict) (secName keyName : String) (v : Toml)
    (k : String) (hk : k ≠ secName) :
    dGet (setSection cfg secName keyName v) k = dGet cfg k := by
  unfold setSection
  cases hp : dGet cfg secName with
  | none => simp [dGet_dSet_ne _ _ _ _ hk]
  | some w => simp [dGet_dSet_ne _ _ _ _ hk]

theorem sec_setSection_ne (cfg : Dict) (secName keyName : String) (v : Toml)
    (k : String) (hk : k ≠ keyName) :
    dGet (getTableD (dGet (setSection cfg secName keyName v) secName)) k =
      dGet (getTableD (dGet cfg secName)) k := by
  unfold setSection
  cases hp : dGet cfg secName with
  | none =>
    simp [hp, dGet_dSet_self, getTableD, dGet_dSet_ne _ _ _ _ hk, dGet]
  | some w =>
    simp [hp, dGet_dSet_self, getTableD, dGet_dSet_ne _ _ _ _ hk]

theorem sec_setSection_self (cfg : Dict) (secName keyName : String)
    (v : Toml) :
    dGet (getTableD (dGet (setSection cfg secName keyName v) secName))
      keyName = some v := by
  unfold setSection
  cases hp : dGet cfg secName with
  | none => simp [hp, dGet_dSet_self, getTableD]
  | some w => simp [hp, dGet_dSet_self, getTableD]

/-! ### Characterizations of the four mutators -/

theorem add_phrase_step_eq (cfg : Dict) (p : String) :
    add_phrase_step cfg p =
      if (get_phrases cfg).any (fun v => v.eqStr p) then none
      else some (setSection cfg "phrases" "list"
        (Toml.arr (get_phrases cfg ++ [Toml.str p]))) := by
  unfold add_phrase_step setSection get_phrases
  cases hp : dGet cfg "phrases" with
  | none => simp [hp, dGet_dSet_self, getTableD, getArrD, dGet]
  | some w => simp [hp]

theorem add_pattern_step_eq (cfg : Dict) (p : String) :
    add_pattern_step cfg p =
      if (get_patterns cfg).any (fun v => v.eqStr p) then none
      else some (setSection cfg "regex" "patterns"
        (Toml.arr (get_patterns cfg ++ [Toml.str p]))) := by
  unfold add_pattern_step setSection get_patterns
  cases hp : dGet cfg "regex" with
  | none => simp [hp, dGet_dSet_self, getTableD, getArrD, dGet]
  | some w => simp [hp]

theorem del_phrase_step_eq (cfg : Dict) (p : String) :
    del_phrase_step cfg p =
      if (get_phrases cfg).any (fun v => v.eqStr p) then
        some (setSection cfg "phrases" "list"
          (Toml.arr ((get_phrases cfg).eraseP (fun v => v.eqStr p))))
      else none := by
  unfold del_phrase_step setSection get_phrases
  cases hp : dGet cfg "phrases" with
  | none => simp [hp, getTableD, getArrD, dGet]
  | some w => simp [hp]

theorem del_pattern_step_eq (cfg : Dict) (p : String) :
    del_pattern_step cfg p =
      if (get_patterns cfg).any (fun v => v.eqStr p) then
        some (setSection cfg "regex" "patterns"
          (Toml.arr ((get_patterns cfg).eraseP (fun v => v.eqStr p))))
      else none := by
  unfold del_pattern_step setSection get_patterns
  cases hp : dGet cfg "regex" with
  | none => simp [hp, getTableD, getArrD, dGet]
  | some w => simp [hp]

theorem get_phrases_setSection (cfg : Dict) (l : List Toml) :
    get_phrases (setSection cfg "phrases" "list" (Toml.arr l)) = l := by
  unfold get_phrases
  rw [sec_setSection_self]
  rfl

theorem get_patterns_setSection (cfg : Dict) (l : List Toml) :
    get_patterns (setSection cfg "regex" "patterns" (Toml.arr l)) = l := by
  unfold get_patterns
  rw [sec_setSection_self]
  rfl

theorem get_patterns_setSection_phrases (cfg : Dict) (v : Toml) :
    get_patterns (setSection cfg "phrases" "list" v) = get_patterns cfg := by
  unfold get_patterns
  rw [dGet_setSection_ne]
  decide

theorem get_phrases_setSection_regex (cfg : Dict) (v : Toml) :
    get_phrases (setSection cfg "regex" "patterns" v) = get_phrases cfg := by
  unfold get_phrases
  rw [dGet_setSection_ne]
  decide

/-! ### Further helper lemmas -/

theorem any_eraseP_false {α : Type} {l : List α} {f q : α → Bool}
    (h : l.any f = false) : (l.eraseP q).any f = false := by
  rw [List.any_eq_false] at h ⊢
  intro x hx
  exact h x (List.eraseP_subset _ hx)

theorem runCmd_emptyFree (compileErr : ReCompile) (cfg : Dict) (c : Cmd)
    (h : EmptyFree cfg) : EmptyFree (runCmd compileErr cfg c) := by
  obtain ⟨h1, h2⟩ := h
  cases c with
  | addP hp m w =>
    unfold runCmd ignore_add_execute
    cases hp with
    | false => exact ⟨h1, h2⟩
    | true =>
      by_cases he : pyStrip (m.getD "") = ""
      · simpa [he] using ⟨h1, h2⟩
      · by_cases hmem :
            ((get_phrases cfg).any fun v => v.eqStr (pyStrip (m.getD ""))) = true
        · simpa [he, add_phrase_step_eq, hmem] using ⟨h1, h2⟩
        · cases w with
          | false => simpa [he, add_phrase_step_eq, hmem] using ⟨h1, h2⟩
          | true =>
            have hgoal : EmptyFree (setSection cfg "phrases" "list"
                (Toml.arr (get_phrases cfg ++ [Toml.str (pyStrip (m.getD ""))]))) := by
              constructor
              · rw [get_phrases_setSection, List.any_append, h1]
                simpa [Toml.eqStr] using he
              · rw [get_patterns_setSection_phrases]
                exact h2
            simpa [he, add_phrase_step_eq, hmem] using hgoal
  | addR hp m w =>
    unfold runCmd ignore_addr_execute
    cases hp with
    | false => exact ⟨h1, h2⟩
    | true =>
      by_cases he : pyStrip (m.getD "") = ""
      · simpa [he] using ⟨h1, h2⟩
      · cases hc : compileErr (pyStrip (m.getD "")) with
        | some e => simpa [he, hc] using ⟨h1, h2⟩
        | none =>
          by_cases hmem :
              ((get_patterns cfg).any fun v => v.eqStr (pyStrip (m.getD ""))) = true
          · simpa [he, hc, add_pattern_step_eq, hmem] using ⟨h1, h2⟩
          · cases w with
            | false => simpa [he, hc, add_pattern_step_eq, hmem] using ⟨h1, h2⟩
            | true =>
              have hgoal : EmptyFree (setSection cfg "regex" "patterns"
                  (Toml.arr (get_patterns cfg ++ [Toml.str (pyStrip (m.getD ""))]))) := by
                constructor
                · rw [get_phrases_setSection_regex]
                  exact h1
                · rw [get_patterns_setSection, List.any_append, h2]
                  simpa [Toml.eqStr] using he
              simpa [he, hc, add_pattern_step_eq, hmem] using hgoal
  | delP hp m w =>
    unfold runCmd ignore_del_execute
    cases hp with
    | false => exact ⟨h1, h2⟩
    | true =>
      by_cases he : pyStrip (m.getD "") = ""
      · simpa [he] using ⟨h1, h2⟩
      · by_cases hmem :
            ((get_phrases cfg).any fun v => v.eqStr (pyStrip (m.getD ""))) = true
        · cases w with
          | false => simpa [he, del_phrase_step_eq, hmem] using ⟨h1, h2⟩
          | true =>
            have hgoal : EmptyFree (setSection cfg "phrases" "list"
                (Toml.arr ((get_phrases cfg).eraseP
                  (fun v => v.eqStr (pyStrip (m.getD "")))))) := by
              constructor
              · rw [get_phrases_setSection]
                exact any_eraseP_false h1
              · rw [get_patterns_setSection_phrases]
                exact h2
            simpa [he, del_phrase_step_eq, hmem] using hgoal
        · simpa [he, del_phrase_step_eq, hmem] using ⟨h1, h2⟩
  | delR hp m w =>
    unfold runCmd ignore_delr_execute
    cases hp with
    | false => exact ⟨h1, h2⟩
    | true =>
      by_cases he : pyStrip (m.getD "") = ""
      · simpa [he] using ⟨h1, h2⟩
      · by_cases hmem :
            ((get_patterns cfg).any fun v => v.eqStr (pyStrip (m.getD ""))) = true
        · cases w with
          | false => simpa [he, del_pattern_step_eq, hmem] using ⟨h1, h2⟩
          | true =>
            have hgoal : EmptyFree (setSection cfg "regex" "patterns"
                (Toml.arr ((get_patterns cfg).eraseP
                  (fun v => v.eqStr (pyStrip (m.getD "")))))) := by
              constructor
              · rw [get_phrases_setSection_regex]
                exact h1
              · rw [get_patterns_setSection]
                exact any_eraseP_false h2
            simpa [he, del_pattern_step_eq, hmem] using hgoal
        · simpa [he, del_pattern_step_eq, hmem] using ⟨h1, h2⟩

/-! ### Claim theorems -/

/-- C1: `_check_phrase_match` returns false when the text or the phrase
list is empty; otherwise, with text and phrases lower-cased when
`case_sensitive` is false and unchanged when true, it returns true iff
some non-empty phrase passes the mode's test against the text (equality
for `exact`, prefix for `startswith`, suffix for `endswith`, substring
containment for the `contains` default); in particular
`("Hello World", ["hello"], "contains")` matches case-insensitively and
not case-sensitively. -/
theorem C1_check_phrase_match_spec :
    (∀ (text : String) (phrases : List String) (mode : String) (cs : Bool),
      check_phrase_match text phrases mode cs = true ↔
        matchPhraseSpec text phrases mode cs)
    ∧ check_phrase_match "Hello World" ["hello"] "contains" false = true
    ∧ check_phrase_match "Hello World" ["hello"] "contains" true = false := by
  refine ⟨?_, by decide, by decide⟩
  intro text phrases mode cs
  unfold check_phrase_match matchPhraseSpec modeTest
  by_cases ht : text = ""
  · simp [ht]
  · by_cases hp : phrases = []
    · simp [ht, hp]
    · simp only [ht, hp, or_self, if_false, ne_eq, not_false_eq_true, true_and,
        List.any_eq_true, false_or]
      constructor
      · rintro ⟨p, hpm, hcond⟩
        by_cases hpe : p = ""
        · rw [hpe] at hcond
          simp at hcond
        · refine ⟨p, hpm, hpe, ?_⟩
          simpa [hpe] using hcond
      · rintro ⟨p, hpm, hpe, hcond⟩
        exact ⟨p, hpm, by simpa [hpe] using hcond⟩

/-- C2: `_check_regex_match` never propagates an `re.error`: a pattern the
oracle rejects is skipped and scanning continues, so a malformed pattern
followed by a valid matching pattern still yields true; and an empty text
or an empty pattern list yields false immediately. -/
theorem C2_check_regex_match_resilient :
    (∀ (search : ReSearch) (text : String) (cs : Bool)
        (pre mid post : List String) (bad good : String),
      text ≠ "" → search bad text (!cs) = none → good ≠ "" →
      search good text (!cs) = some true →
      check_regex_match search text (pre ++ bad :: mid ++ good :: post) cs = true)
    ∧ (∀ (search : ReSearch) (patterns : List String) (cs : Bool),
        check_regex_match search "" patterns cs = false)
    ∧ (∀ (search : ReSearch) (text : String) (cs : Bool),
        check_regex_match search text [] cs = false) := by
  refine ⟨?_, ?_, ?_⟩
  · intro search text cs pre mid post bad good ht hbad hg hgs
    unfold check_regex_match
    have hne : pre ++ bad :: mid ++ good :: post ≠ [] := by simp
    rw [if_neg (by simp [ht, hne])]
    rw [List.any_eq_true]
    refine ⟨good, by simp, ?_⟩
    simp [hg, hgs]
  · intro search patterns cs
    simp [check_regex_match]
  · intro search text cs
    simp [check_regex_match]

/-- C2 witness: a malformed pattern (oracle raises) followed by a valid
matching pattern still yields true. -/
theorem C2_witness :
    check_regex_match
      (fun p t _ => if p = "(" then none else some (p = t))
      "hi" ([] ++ "(" :: [] ++ "hi" :: []) false = true :=
  C2_check_regex_match_resilient.1
    (fun p t _ => if p = "(" then none else some (p = t)) "hi" false
    [] [] [] "(" "hi" (by decide) (by decide) (by decide) (by decide)

/-- C3: `check_permission` is false for an empty user id or an absent
config; with an explicit `list_type` and list it tests membership of the
user id in the string-coerced list for `whitelist`, non-membership for
`blacklist`, and is false for any other value; including the
specification's three examples and an integer-coercion example. -/
theorem C3_check_permission_spec :
    (∀ cfg, check_permission "" cfg = false)
    ∧ (∀ uid, check_permission uid none = false)
    ∧ (∀ (uid lt : String) (lst : List TomlPrim) (hok : Bool), uid ≠ "" →
        check_permission uid (some ⟨some ⟨some lt, some lst⟩, hok⟩) =
          if lt = "whitelist" then (lst.map TomlPrim.toStr).contains uid
          else if lt = "blacklist" then !((lst.map TomlPrim.toStr).contains uid)
          else false)
    ∧ check_permission "u1"
        (some ⟨some ⟨some "whitelist", some [TomlPrim.s "u1"]⟩, false⟩) = true
    ∧ check_permission "u2"
        (some ⟨some ⟨some "whitelist", some [TomlPrim.s "u1"]⟩, false⟩) = false
    ∧ check_permission "u2"
        (some ⟨some ⟨some "blacklist", some [TomlPrim.s "u1"]⟩, false⟩) = true
    ∧ check_permission "42"
        (some ⟨some ⟨some "whitelist", some [TomlPrim.i 42]⟩, false⟩) = true := by
  refine ⟨?_, ?_, ?_, by decide, by decide, by decide, by decide⟩
  · intro cfg
    simp [check_permission]
  · intro uid
    unfold check_permission
    by_cases h : uid = "" <;> simp [h]
  · intro uid lt lst hok hu
    simp [check_permission, hu, PermConfig.truthy]

/-- C3 witness: blacklist with a non-listed user grants permission. -/
theorem C3_witness :
    check_permission "alice"
      (some ⟨some ⟨some "blacklist", some [TomlPrim.s "bob"]⟩, true⟩) = true := by
  rw [C3_check_permission_spec.2.2.1 "alice" "blacklist" [TomlPrim.s "bob"] true
    (by decide)]
  decide

/-- C4 counterexample: `add_phrase` does not reject the empty phrase — on
an empty store `add_phrase("")` persists the empty string and returns
true (write succeeding), so the claimed reject-empty behaviour is absent
at the store layer. -/
theorem C4_counterexample :
    add_phrase_run [] "" true =
      ([("phrases", Toml.table [("list", Toml.arr [Toml.str ""])])], true) ∧
    ((get_phrases (add_phrase_run [] "" true).1).any
      (fun v => v.eqStr "") = true) := by
  exact ⟨rfl, rfl⟩

/-- C4 (amended): `add_phrase` itself accepts an empty phrase; emptiness is
rejected one layer up — each command strips its argument and aborts when
the result is empty before touching the store — so after any sequence of
command-surface operations starting from a store with no empty string,
neither stored sequence ever contains an empty string. -/
theorem C4_amended_emptyFree (compileErr : ReCompile) (cmds : List Cmd)
    (cfg : Dict) (h : EmptyFree cfg) :
    EmptyFree (runCmds compileErr cmds cfg) := by
  induction cmds generalizing cfg with
  | nil => exact h
  | cons c rest ih =>
    exact ih (runCmd compileErr cfg c) (runCmd_emptyFree compileErr cfg c h)

/-- C4 witness: the empty store is empty-free and stays so after an add
command with a padded argument. -/
theorem C4_witness :
    EmptyFree [] ∧
    EmptyFree (runCmds (fun _ => none)
      [Cmd.addP true (some " spam ") true] []) :=
  ⟨⟨rfl, rfl⟩, C4_amended_emptyFree (fun _ => none)
    [Cmd.addP true (some " spam ") true] [] ⟨rfl, rfl⟩⟩

/-- C5 counterexample: with the backing file absent, it is still absent
after `load` returns — `load` only records the path, it never writes. -/
theorem C5_counterexample :
    (ConfigManager.load ⟨none⟩ "plugins/ignore_phrase_plugin" ⟨none⟩).2.file
      = none := rfl

/-- C5 (amended): `load` records the backing file path and performs no
file I/O (the file system is returned unchanged, so an absent file stays
absent); the absent file is instead tolerated at read time, where
`_read_config` yields the empty configuration. -/
theorem C5_amended_load_no_write :
    (∀ (st : CMState) (dir : String) (fs : FS),
      (ConfigManager.load st dir fs).2 = fs ∧
      (ConfigManager.load st dir fs).1.config_path =
        some (dir ++ "/config.toml"))
    ∧ (∀ st : CMState, read_config st ⟨none⟩ = []) := by
  refine ⟨fun st dir fs => ⟨rfl, rfl⟩, fun st => ?_⟩
  obtain ⟨p⟩ := st
  cases p <;> rfl

/-- C6: for a phrase not already present, `add_phrase` (writes succeeding)
returns true on the first call and false on the second, and the final
phrase list contains the phrase exactly once. -/
theorem C6_addPhrase_twice (cfg : Dict) (p : String) (_hp : p ≠ "")
    (habs : ((get_phrases cfg).any fun v => v.eqStr p) = false) :
    (add_phrase_run cfg p true).2 = true ∧
    (add_phrase_run (add_phrase_run cfg p true).1 p true).2 = false ∧
    ((get_phrases (add_phrase_run (add_phrase_run cfg p true).1 p true).1).countP
      (fun v => v.eqStr p)) = 1 := by
  have h1 : add_phrase_step cfg p = some (setSection cfg "phrases" "list"
      (Toml.arr (get_phrases cfg ++ [Toml.str p]))) := by
    rw [add_phrase_step_eq, if_neg (by simp [habs])]
  have hrun1 : add_phrase_run cfg p true =
      (setSection cfg "phrases" "list"
        (Toml.arr (get_phrases cfg ++ [Toml.str p])), true) := by
    simp [add_phrase_run, h1]
  have hgp : get_phrases (setSection cfg "phrases" "list"
      (Toml.arr (get_phrases cfg ++ [Toml.str p]))) =
      get_phrases cfg ++ [Toml.str p] := get_phrases_setSection cfg _
  have hany : ((get_phrases (setSection cfg "phrases" "list"
      (Toml.arr (get_phrases cfg ++ [Toml.str p])))).any
        fun v => v.eqStr p) = true := by
    rw [hgp, List.any_append, habs]
    simp [Toml.eqStr]
  have h2 : add_phrase_step (setSection cfg "phrases" "list"
      (Toml.arr (get_phrases cfg ++ [Toml.str p]))) p = none := by
    rw [add_phrase_step_eq, if_pos hany]
  have hzero : (get_phrases cfg).countP (fun v => v.eqStr p) = 0 :=
    List.countP_eq_zero.mpr (List.any_eq_false.mp habs)
  have hrun2 : add_phrase_run (setSection cfg "phrases" "list"
      (Toml.arr (get_phrases cfg ++ [Toml.str p]))) p true =
      (setSection cfg "phrases" "list"
        (Toml.arr (get_phrases cfg ++ [Toml.str p])), false) := by
    simp [add_phrase_run, h2]
  refine ⟨by simp [hrun1], ?_, ?_⟩
  · simp [hrun1, hrun2]
  · simp [hrun1, hrun2, hgp, List.countP_append, hzero, List.countP_cons,
      Toml.eqStr]
    intro a ha
    simpa using List.any_eq_false.mp habs a ha


/-- C6 witness: adding "spam" twice to the empty store. -/
theorem C6_witness :
    (("spam" : String) ≠ "" ∧
      ((get_phrases []).any fun v => v.eqStr "spam") = false) ∧
    ((add_phrase_run [] "spam" true).2 = true ∧
      (add_phrase_run (add_phrase_run [] "spam" true).1 "spam" true).2 = false ∧
      ((get_phrases
          (add_phrase_run (add_phrase_run [] "spam" true).1 "spam" true).1).countP
        (fun v => v.eqStr "spam")) = 1) :=
  ⟨⟨by decide, rfl⟩, C6_addPhrase_twice [] "spam" (by decide) rfl⟩

/-- C7: the intercept handler passes a message through when the plugin is
disabled or the plain text is absent or empty; with the plugin enabled it
evaluates phrase matching before regex matching, so when both hit it
stops with the phrase-match reason, and reports the regex-match reason
only when the phrase side did not hit. -/
theorem C7_handler_order :
    (∀ (search : ReSearch) (cfg : HandlerConfig) (msg : Option Msg),
      cfg.plugin_enabled = false →
      handler_execute search cfg msg = (true, true, none))
    ∧ (∀ (search : ReSearch) (cfg : HandlerConfig),
        handler_execute search cfg none = (true, true, none))
    ∧ (∀ (search : ReSearch) (cfg : HandlerConfig),
        handler_execute search cfg (some ⟨none⟩) = (true, true, none))
    ∧ (∀ (search : ReSearch) (cfg : HandlerConfig),
        handler_execute search cfg (some ⟨some ""⟩) = (true, true, none))
    ∧ (∀ (search : ReSearch) (cfg : HandlerConfig) (text : String),
        cfg.plugin_enabled = true → text ≠ "" →
        cfg.phrases_enabled = true →
        check_phrase_match text cfg.phrases_list cfg.match_mode
          cfg.case_sensitive = true →
        cfg.regex_enabled = true →
        check_regex_match search text cfg.patterns
          cfg.regex_case_sensitive = true →
        handler_execute search cfg (some ⟨some text⟩) =
          (true, false, some "短语匹配拦截"))
    ∧ (∀ (search : ReSearch) (cfg : HandlerConfig) (text : String),
        cfg.plugin_enabled = true → text ≠ "" →
        (cfg.phrases_enabled &&
          check_phrase_match text cfg.phrases_list cfg.match_mode
            cfg.case_sensitive) = false →
        cfg.regex_enabled = true →
        check_regex_match search text cfg.patterns
          cfg.regex_case_sensitive = true →
        handler_execute search cfg (some ⟨some text⟩) =
          (true, false, some "正则匹配拦截")) := by
  refine ⟨?_, ?_, ?_, ?_, ?_, ?_⟩
  · intro search cfg msg h
    unfold handler_execute
    simp [h]
  · intro search cfg
    unfold handler_execute
    cases hpe : cfg.plugin_enabled <;> simp [hpe]
  · intro search cfg
    unfold handler_execute
    cases hpe : cfg.plugin_enabled <;> simp [hpe]
  · intro search cfg
    unfold handler_execute
    cases hpe : cfg.plugin_enabled <;> simp [hpe]
  · intro search cfg text hen ht hpe hpm hre hrm
    unfold handler_execute
    simp [hen, ht, hpe, hpm]
  · intro search cfg text hen ht hmiss hre hrm
    unfold handler_execute
    simp [hen, ht, hmiss, hre, hrm]

/-- C7 witness: a message hitting both the phrase list and the pattern
list is stopped with the phrase-match reason. -/
theorem C7_witness :
    handler_execute (fun _ _ _ => some true)
      ⟨true, true, ["spam"], "contains", false, true, ["spam"], false⟩
      (some ⟨some "spam"⟩) = (true, false, some "短语匹配拦截") :=
  C7_handler_order.2.2.2.2.1 (fun _ _ _ => some true)
    ⟨true, true, ["spam"], "contains", false, true, ["spam"], false⟩ "spam"
    rfl (by decide) rfl (by decide) rfl (by decide)

/-- C8: the add-regex command rejects a pattern the compiler refuses
before delegating to the store, sending the compiler's error message and
leaving the store untouched; consequently, if every stored pattern
compiles then every stored pattern still compiles after the command. -/
theorem C8_addr_validation :
    (∀ (compileErr : ReCompile) (arg : Option String) (writeOk : Bool)
        (cfg : Dict) (e : String),
      pyStrip (arg.getD "") ≠ "" →
      compileErr (pyStrip (arg.getD "")) = some e →
      ignore_addr_execute compileErr true arg writeOk cfg =
        ((false, "正则无效", true), ["❌ 无效的正则表达式: " ++ e], cfg))
    ∧ (∀ (compileErr : ReCompile) (hasPerm : Bool) (arg : Option String)
        (writeOk : Bool) (cfg : Dict),
      (∀ s : String, Toml.str s ∈ get_patterns cfg → compileErr s = none) →
      ∀ s : String,
        Toml.str s ∈
          get_patterns (ignore_addr_execute compileErr hasPerm arg
            writeOk cfg).2.2 →
        compileErr s = none) := by
  constructor
  · intro compileErr arg writeOk cfg e he hc
    unfold ignore_addr_execute
    simp [he, hc]
  · intro compileErr hasPerm arg writeOk cfg hall s hs
    unfold ignore_addr_execute at hs
    cases hasPerm with
    | false => exact hall s (by simpa using hs)
    | true =>
      by_cases he : pyStrip (arg.getD "") = ""
      · simp [he] at hs
        exact hall s hs
      · cases hc : compileErr (pyStrip (arg.getD "")) with
        | some e =>
          simp [he, hc] at hs
          exact hall s hs
        | none =>
          by_cases hmem :
              ((get_patterns cfg).any fun v => v.eqStr (pyStrip (arg.getD ""))) = true
          · simp [he, hc, add_pattern_step_eq, hmem] at hs
            exact hall s hs
          · cases writeOk with
            | false =>
              simp [he, hc, add_pattern_step_eq, hmem] at hs
              exact hall s hs
            | true =>
              simp [he, hc, add_pattern_step_eq, hmem,
                get_patterns_setSection] at hs
              rcases hs with hs | hs
              · exact hall s hs
              · rw [hs]
                exact hc

/-- C8 witness: an unbalanced parenthesis is rejected with the compiler's
message and the store is unchanged. -/
theorem C8_witness :
    ignore_addr_execute
      (fun s => if s = "(" then some "missing ), unterminated subpattern" else none)
      true (some " ( ") true [] =
      ((false, "正则无效", true),
        ["❌ 无效的正则表达式: " ++ "missing ), unterminated subpattern"], []) :=
  C8_addr_validation.1
    (fun s => if s = "(" then some "missing ), unterminated subpattern" else none)
    (some " ( ") true [] "missing ), unterminated subpattern"
    (by decide) (by decide)

/-- C9: each successful mutator writes back a configuration differing from
the one read only in the targeted list — every top-level key other than
the targeted section, and every key of that section other than the
targeted list key, reads back unchanged. -/
theorem C9_frame :
    (∀ (cfg : Dict) (p : String) (cfg' : Dict),
      add_phrase_step cfg p = some cfg' →
      (∀ k, k ≠ "phrases" → dGet cfg' k = dGet cfg k) ∧
      (∀ k, k ≠ "list" →
        dGet (getTableD (dGet cfg' "phrases")) k =
          dGet (getTableD (dGet cfg "phrases")) k))
    ∧ (∀ (cfg : Dict) (p : String) (cfg' : Dict),
      del_phrase_step cfg p = some cfg' →
      (∀ k, k ≠ "phrases" → dGet cfg' k = dGet cfg k) ∧
      (∀ k, k ≠ "list" →
        dGet (getTableD (dGet cfg' "phrases")) k =
          dGet (getTableD (dGet cfg "phrases")) k))
    ∧ (∀ (cfg : Dict) (p : String) (cfg' : Dict),
      add_pattern_step cfg p = some cfg' →
      (∀ k, k ≠ "regex" → dGet cfg' k = dGet cfg k) ∧
      (∀ k, k ≠ "patterns" →
        dGet (getTableD (dGet cfg' "regex")) k =
          dGet (getTableD (dGet cfg "regex")) k))
    ∧ (∀ (cfg : Dict) (p : String) (cfg' : Dict),
      del_pattern_step cfg p = some cfg' →
      (∀ k, k ≠ "regex" → dGet cfg' k = dGet cfg k) ∧
      (∀ k, k ≠ "patterns" →
        dGet (getTableD (dGet cfg' "regex")) k =
          dGet (getTableD (dGet cfg "regex")) k)) := by
  refine ⟨?_, ?_, ?_, ?_⟩
  · intro cfg p cfg' h
    rw [add_phrase_step_eq] at h
    by_cases hmem : ((get_phrases cfg).any fun v => v.eqStr p) = true
    · rw [if_pos hmem] at h
      cases h
    · rw [if_neg hmem] at h
      injection h with h'
      subst h'
      exact ⟨fun k hk => dGet_setSection_ne cfg "phrases" "list" _ k hk,
        fun k hk => sec_setSection_ne cfg "phrases" "list" _ k hk⟩
  · intro cfg p cfg' h
    rw [del_phrase_step_eq] at h
    by_cases hmem : ((get_phrases cfg).any fun v => v.eqStr p) = true
    · rw [if_pos hmem] at h
      injection h with h'
      subst h'
      exact ⟨fun k hk => dGet_setSection_ne cfg "phrases" "list" _ k hk,
        fun k hk => sec_setSection_ne cfg "phrases" "list" _ k hk⟩
    · rw [if_neg hmem] at h
      cases h
  · intro cfg p cfg' h
    rw [add_pattern_step_eq] at h
    by_cases hmem : ((get_patterns cfg).any fun v => v.eqStr p) = true
    · rw [if_pos hmem] at h
      cases h
    · rw [if_neg hmem] at h
      injection h with h'
      subst h'
      exact ⟨fun k hk => dGet_setSection_ne cfg "regex" "patterns" _ k hk,
        fun k hk => sec_setSection_ne cfg "regex" "patterns" _ k hk⟩
  · intro cfg p cfg' h
    rw [del_pattern_step_eq] at h
    by_cases hmem : ((get_patterns cfg).any fun v => v.eqStr p) = true
    · rw [if_pos hmem] at h
      injection h with h'
      subst h'
      exact ⟨fun k hk => dGet_setSection_ne cfg "regex" "patterns" _ k hk,
        fun k hk => sec_setSection_ne cfg "regex" "patterns" _ k hk⟩
    · rw [if_neg hmem] at h
      cases h

/-- C9 witness: adding a phrase leaves an unrelated top-level key
unchanged. -/
theorem C9_witness :
    add_phrase_step [("other", Toml.int 7)] "x" =
      some [("other", Toml.int 7),
        ("phrases", Toml.table [("list", Toml.arr [Toml.str "x"])])] ∧
    dGet [("other", Toml.int 7),
        ("phrases", Toml.table [("list", Toml.arr [Toml.str "x"])])] "other" =
      dGet [("other", Toml.int 7)] "other" :=
  ⟨rfl, (C9_frame.1 [("other", Toml.int 7)] "x" _ rfl).1 "other" (by decide)⟩

/-- C10: a missing `list_type` is read back as `whitelist`, and with the
user list also missing or empty (or the whole `user_control` section
absent) `check_permission` denies every user id. -/
theorem C10_default_whitelist_deny :
    (∀ (uid : String) (lst : Option (List TomlPrim)) (hok : Bool),
      check_permission uid (some ⟨some ⟨none, lst⟩, hok⟩) =
        check_permission uid (some ⟨some ⟨some "whitelist", lst⟩, hok⟩))
    ∧ (∀ (uid : String) (hok : Bool),
        check_permission uid (some ⟨none, hok⟩) = false)
    ∧ (∀ (uid : String) (hok : Bool),
        check_permission uid (some ⟨some ⟨none, none⟩, hok⟩) = false)
    ∧ (∀ (uid : String) (hok : Bool),
        check_permission uid (some ⟨some ⟨none, some []⟩, hok⟩) = false) := by
  refine ⟨?_, ?_, ?_, ?_⟩
  · intro uid lst hok
    unfold check_permission
    by_cases h : uid = "" <;> simp [h, PermConfig.truthy]
  · intro uid hok
    unfold check_permission
    by_cases h : uid = "" <;> cases hok <;> simp [h, PermConfig.truthy]
  · intro uid hok
    unfold check_permission
    by_cases h : uid = "" <;> simp [h, PermConfig.truthy]
  · intro uid hok
    unfold check_permission
    by_cases h : uid = "" <;> simp [h, PermConfig.truthy]

end IgnorePhrase
